import Mathlib

/-!
Shallow embedding of `src/monitor_drive.py` (class `DriveMonitor`).

The Google Drive provider is modelled as an environment of response
functions: each provider call either succeeds with parsed JSON data or
raises an `HttpError`.  Parsed JSON dictionaries are modelled with
`Option`-valued fields (a missing key is `none`); Python's `d.get(k, v)`
becomes `Option.getD`, `d[k]` becomes a `match` that raises `KeyError`
on `none`.  Delete calls issued against the provider are recorded in
traces so that remediation behaviour can be stated.
-/

namespace DriveMonitor

/-- The single error kind raised by the provider client (`googleapiclient.errors.HttpError`). -/
inductive HttpErr
  | err
  deriving DecidableEq, Repr

/-- Python exception kinds relevant to this program: `HttpError` from the
provider client, and `KeyError` from a `d[k]` access on a missing key. -/
inductive PyExc
  | httpError (e : HttpErr)
  | keyError
  deriving DecidableEq, Repr

/-- A permission entry as returned by the provider: a JSON dictionary whose
`type` and `id` keys may each be absent. -/
structure Permission where
  type? : Option String
  id? : Option String
  deriving DecidableEq, Repr

/-- Response of `service.files().get(fileId=..., fields="id, name, permissions")`:
either an `HttpError`, or a parsed dictionary whose `permissions` key may be
absent (`none`). -/
abbrev GetResp := Except HttpErr (Option (List Permission))

/-- Evaluation of `any(p['type'] == 'anyone' for p in permissions)`:
short-circuits at the first entry whose `type` equals `"anyone"`, and raises
`KeyError` at the first entry lacking the `type` key reached before that. -/
def anyTypeAnyone : List Permission → Except PyExc Bool
  | [] => .ok false
  | p :: ps =>
    match p.type? with
    | none => .error .keyError
    | some t => if t = "anyone" then .ok true else anyTypeAnyone ps

/-- Outcome of a Python method returning `bool`: a normal return, or an
exception escaping the method uncaught. -/
inductive BoolOutcome
  | result (b : Bool)
  | uncaught (e : PyExc)
  deriving DecidableEq, Repr

/-- `DriveMonitor.is_file_open_for_everyone` (lines 59-67): fetches the file,
takes `file.get('permissions', [])`, tests `any(p['type'] == 'anyone' ...)`.
Its `except` clause catches only `HttpError` (logging and returning `False`);
a `KeyError` raised by `p['type']` escapes uncaught. -/
def is_file_open_for_everyone (resp : GetResp) : BoolOutcome :=
  match resp with
  | .error _ => .result false
  | .ok perms? =>
    match anyTypeAnyone (perms?.getD []) with
    | .ok b => .result b
    | .error (.httpError _) => .result false
    | .error .keyError => .uncaught .keyError

/-- `DriveMonitor.is_folder_open_for_everyone` (lines 69-77): textually the
same body as `is_file_open_for_everyone`, applied to a folder id. -/
def is_folder_open_for_everyone (resp : GetResp) : BoolOutcome :=
  match resp with
  | .error _ => .result false
  | .ok perms? =>
    match anyTypeAnyone (perms?.getD []) with
    | .ok b => .result b
    | .error (.httpError _) => .result false
    | .error .keyError => .uncaught .keyError

/-- `DriveMonitor.get_parent_folder_id` (lines 89-96): on success returns
`parents[0] if parents else None` over `file.get('parents', [])`; on
`HttpError` logs and returns `None`. -/
def get_parent_folder_id (resp : Except HttpErr (Option (List String))) : Option String :=
  match resp with
  | .error _ => none
  | .ok parents? => (parents?.getD []).head?

/-- A `permissions().delete(fileId=..., permissionId=...)` call issued
against the provider.  Both arguments come from `.get` accesses and may be
`None`. -/
structure DeleteCall where
  fileId : Option String
  permId : Option String
  deriving DecidableEq, Repr

/-- Environment of `remove_anyone_can_access_permissions` for one file:
the `permissions().list` response and the outcome of each delete call
(keyed by the `permissionId` argument). -/
structure RevokeEnv where
  listResp : Except HttpErr (Option (List Permission))
  deleteResp : Option String → Except HttpErr Unit

/-- The `for` loop of `remove_anyone_can_access_permissions`: for each
permission whose `.get('type')` equals `'anyone'`, issue a delete for its
`.get('id')`.  Returns the delete calls issued and the first `HttpError`
raised (which aborts the loop), if any. -/
def revokeLoop (fid : Option String) (del : Option String → Except HttpErr Unit) :
    List Permission → List DeleteCall × Option HttpErr
  | [] => ([], none)
  | p :: ps =>
    if p.type? = some "anyone" then
      match del p.id? with
      | .error e => ([⟨fid, p.id?⟩], some e)
      | .ok _ =>
        let r := revokeLoop fid del ps
        (⟨fid, p.id?⟩ :: r.1, r.2)
    else revokeLoop fid del ps

/-- The `try` block of `remove_anyone_can_access_permissions` (lines 79-87):
lists the file's permissions and runs `revokeLoop`.  Returns the delete
calls issued and the `HttpError` raised inside the block, if any. -/
def removeBody (fid : Option String) (env : RevokeEnv) : List DeleteCall × Option HttpErr :=
  match env.listResp with
  | .error e => ([], some e)
  | .ok perms? => revokeLoop fid env.deleteResp (perms?.getD [])

/-- `DriveMonitor.remove_anyone_can_access_permissions` (lines 79-87): the
whole body is wrapped in `except HttpError`, which logs and swallows the
error, so the method always returns normally; its observable effect is the
list of delete calls it issued. -/
def remove_anyone_can_access_permissions (fid : Option String) (env : RevokeEnv) :
    List DeleteCall :=
  (removeBody fid env).1

/-- A file entry from a listing response (`fields='files(id, name)'`): a
dictionary read with `.get`, so both keys may be absent. -/
structure FileEntry where
  id? : Option String
  name? : Option String
  deriving DecidableEq, Repr

/-- Provider environment seen by one monitor cycle.  `fileGet` is the
response of `files().get(fileId=k, fields="id, name, permissions")` for
argument `k` (used both for files and for parent folders); `parentGet` is
the response for `fields="parents"`; `permList` the response of
`permissions().list`; `permDelete` the outcome of
`permissions().delete(fileId, permissionId)`. -/
structure DriveEnv where
  fileGet : Option String → GetResp
  parentGet : Option String → Except HttpErr (Option (List String))
  permList : Option String → Except HttpErr (Option (List Permission))
  permDelete : Option String → Option String → Except HttpErr Unit

/-- Result of processing one listed file inside `monitor_drive`'s `for`
loop: either an exception escapes (crashing the loop, which has no handler),
or the iteration completes having issued the recorded delete calls. -/
inductive StepResult
  | crashed (e : PyExc)
  | done (calls : List DeleteCall)
  deriving DecidableEq, Repr

/-- One iteration of the `for file in files` loop of
`DriveMonitor.monitor_drive` (lines 161-174): check
`is_file_open_for_everyone`; if public, fetch the parent folder id; if the
parent id is truthy (non-`None` and non-empty) and
`is_folder_open_for_everyone` holds of it, call
`remove_anyone_can_access_permissions` on the file. -/
def processFile (env : DriveEnv) (f : FileEntry) : StepResult :=
  match is_file_open_for_everyone (env.fileGet f.id?) with
  | .uncaught e => .crashed e
  | .result false => .done []
  | .result true =>
    match get_parent_folder_id (env.parentGet f.id?) with
    | none => .done []
    | some pid =>
      if pid = "" then .done []
      else
        match is_folder_open_for_everyone (env.fileGet (some pid)) with
        | .uncaught e => .crashed e
        | .result false => .done []
        | .result true =>
          .done (remove_anyone_can_access_permissions f.id?
            ⟨env.permList f.id?, env.permDelete f.id?⟩)

/-- The body of one monitor cycle of `DriveMonitor.monitor_drive`: process
the listed files in listing order, concatenating the delete calls issued;
an uncaught exception aborts the cycle. -/
def monitorCycle (env : DriveEnv) : List FileEntry → Except PyExc (List DeleteCall)
  | [] => .ok []
  | f :: fs =>
    match processFile env f with
    | .crashed e => .error e
    | .done cs => (monitorCycle env fs).map (fun t => cs ++ t)

/-- A `files().list` response page: the `files` and `nextPageToken` keys may
each be absent. -/
structure Page where
  files? : Option (List FileEntry)
  nextPageToken? : Option String

/-- Provider responses to `files().list(..., pageToken=t)`, keyed by the
page token sent. -/
abbrev Pages := String → Except HttpErr Page

/-- The `while page_token is not None` loop of `DriveMonitor.get_all_files`
(lines 147-153), with explicit fuel: `none` means the fuel ran out before
the loop exited (the loop does not terminate within `fuel` iterations);
`some r` is the Python outcome, where `r` is the accumulated file list or
the `HttpError` raised by `files().list` (the method has no handler, so the
error propagates to the caller). -/
def getAllFilesLoop (pages : Pages) :
    Nat → String → List FileEntry → Option (Except HttpErr (List FileEntry))
  | 0, _, _ => none
  | fuel + 1, tok, acc =>
    match pages tok with
    | .error e => some (.error e)
    | .ok pg =>
      match pg.nextPageToken? with
      | none => some (.ok (acc ++ pg.files?.getD []))
      | some t2 => getAllFilesLoop pages fuel t2 (acc ++ pg.files?.getD [])

/-- `DriveMonitor.get_all_files` (lines 141-155): starts the pagination
loop at `page_token = ""` with an empty accumulator.  The time-window query
string only parametrises the provider's responses and is absorbed into
`pages`. -/
def get_all_files (pages : Pages) (fuel : Nat) : Option (Except HttpErr (List FileEntry)) :=
  getAllFilesLoop pages fuel "" []

/-- The page token the loop is about to send on its `n`-th request when
started at token `t`: `none` once the loop has exited (by a response with
no `nextPageToken`, or by an `HttpError` aborting it). -/
def chainF (pages : Pages) : Nat → String → Option String
  | 0, t => some t
  | n + 1, t =>
    match pages t with
    | .error _ => none
    | .ok pg =>
      match pg.nextPageToken? with
      | none => none
      | some t2 => chainF pages n t2

/-- A multi-page provider response sequence: starting from token `t`, each
request succeeds, each page's `nextPageToken` is the token of the next
request, and the last page carries no `nextPageToken`. -/
inductive PagesChain (pages : Pages) : String → List Page → Prop
  | last (t : String) (pg : Page) (h1 : pages t = .ok pg)
      (h2 : pg.nextPageToken? = none) : PagesChain pages t [pg]
  | step (t t2 : String) (pg : Page) (pgs : List Page) (h1 : pages t = .ok pg)
      (h2 : pg.nextPageToken? = some t2) (h3 : PagesChain pages t2 pgs) :
      PagesChain pages t (pg :: pgs)

/-- A credential object as held by the collaborator library: whether it
carries an access token, whether that token has expired, and whether it
carries a refresh token. -/
structure Cred where
  token : Bool
  expired : Bool
  refresh_token : Bool
  deriving DecidableEq, Repr

/-- The collaborator's `Credentials.valid` property: a token is present and
not expired. -/
def Cred.valid (c : Cred) : Bool :=
  c.token && !c.expired

/-- Environment of `_authenticate`: the credential persisted in
`token.pickle` if that file exists, the credential resulting from
`creds.refresh(Request())`, and the credential produced by the interactive
`InstalledAppFlow` run. -/
structure AuthEnv where
  stored : Option Cred
  refreshed : Cred → Cred
  flowCred : Cred

/-- `DriveMonitor._authenticate` (lines 44-57), returning the credential it
yields together with the credential written to `token.pickle` (`none` when
the store is not rewritten).  A loaded valid credential is returned as-is;
otherwise an expired credential holding a refresh token is refreshed, else
the interactive flow runs, and in both of those cases the result is
persisted. -/
def _authenticate (env : AuthEnv) : Cred × Option Cred :=
  match env.stored with
  | none =>
    let c := env.flowCred
    (c, some c)
  | some c =>
    if c.valid then (c, none)
    else
      let c2 := if c.expired && c.refresh_token then env.refreshed c else env.flowCred
      (c2, some c2)

/-- A file created by `create_file` with `fields='id, permissions'`; only
the `id` is consumed downstream. -/
structure CreatedFile where
  id : String
  deriving DecidableEq, Repr

/-- Environment of the default-visibility probe: the file created for each
value of `ignore_default_visibility` (`none` when `create_file` caught an
`HttpError` and returned `None`), the permission responses consulted by the
comparison helper, and the outcome of each `files().delete` call. -/
structure ProbeEnv where
  created : Bool → Option CreatedFile
  getPerms : String → Except HttpErr (Option (List Permission))
  deleteFile : String → Except HttpErr Unit

/-- `DriveMonitor._compare_file_permissions_between_file_with_default_visibility_and_without`
(lines 114-139): fetches both files' permissions; if the second list is
non-empty, pops the `id` of its first entry (`pop('id')` raises `KeyError`
when absent, uncaught since only `HttpError` is handled) and returns the
first list filtered to entries whose `.get('id')` differs; on `HttpError`,
or when the second list is empty, falls through returning `None`. -/
def comparePermissions (env : ProbeEnv) (fid1 fid2 : String) :
    Except PyExc (Option (List Permission)) :=
  match env.getPerms fid1 with
  | .error _ => .ok none
  | .ok ps1? =>
    match env.getPerms fid2 with
    | .error _ => .ok none
    | .ok ps2? =>
      match ps2?.getD [] with
      | [] => .ok none
      | q :: _ =>
        match q.id? with
        | none => .error .keyError
        | some pid => .ok (some ((ps1?.getD []).filter (fun p => p.id? ≠ some pid)))

/-- `DriveMonitor.get_default_sharing_settings` (lines 178-193), returning
the Python outcome (the comparison result, `[]` when either creation
failed, or a propagated exception) together with the `files().delete` calls
issued.  The two delete calls at lines 186-187 are not wrapped in any
handler: an `HttpError` from the first aborts the method before the second
is issued. -/
def get_default_sharing_settings (env : ProbeEnv) :
    Except PyExc (Option (List Permission)) × List String :=
  match env.created false, env.created true with
  | some f1, some f2 =>
    match comparePermissions env f1.id f2.id with
    | .error e => (.error e, [])
    | .ok np =>
      match env.deleteFile f1.id with
      | .error e => (.error (.httpError e), [f1.id])
      | .ok _ =>
        match env.deleteFile f2.id with
        | .error e => (.error (.httpError e), [f1.id, f2.id])
        | .ok _ => (.ok np, [f1.id, f2.id])
  | _, _ => (.ok (some []), [])

/-! Helper lemmas about the permission scan and the revoke loop. -/

theorem anyTypeAnyone_ok_true_iff (ps : List Permission)
    (hwt : ∀ p ∈ ps, (p.type?).isSome) :
    anyTypeAnyone ps = .ok true ↔ ∃ p ∈ ps, p.type? = some "anyone" := by
  induction ps with
  | nil => simp [anyTypeAnyone]
  | cons p ps ih =>
    obtain ⟨t, ht⟩ := Option.isSome_iff_exists.mp (hwt p (List.mem_cons_self p ps))
    have ih2 := ih (fun q hq => hwt q (List.mem_cons_of_mem p hq))
    by_cases hta : t = "anyone"
    · subst hta
      constructor
      · intro _
        exact ⟨p, List.mem_cons_self p ps, ht⟩
      · intro _
        simp [anyTypeAnyone, ht]
    · simp only [anyTypeAnyone, ht, if_neg hta, ih2, List.mem_cons]
      constructor
      · exact fun ⟨q, hq, hqa⟩ => ⟨q, Or.inr hq, hqa⟩
      · rintro ⟨q, hq | hq, hqa⟩
        · subst hq; rw [ht] at hqa; exact absurd (Option.some_injective _ hqa) hta
        · exact ⟨q, hq, hqa⟩

theorem anyTypeAnyone_keyError (ps1 ps2 : List Permission) (p : Permission)
    (hp : p.type? = none) (hbef : ∀ q ∈ ps1, q.type? ≠ some "anyone") :
    anyTypeAnyone (ps1 ++ p :: ps2) = .error .keyError := by
  induction ps1 with
  | nil => simp [anyTypeAnyone, hp]
  | cons q ps1 ih =>
    have hq := hbef q (List.mem_cons_self q ps1)
    match hqt : q.type? with
    | none => simp [anyTypeAnyone, hqt]
    | some t =>
      have hta : t ≠ "anyone" := by
        intro h; exact hq (by rw [hqt, h])
      simp only [List.cons_append, anyTypeAnyone, hqt, if_neg hta]
      exact ih (fun r hr => hbef r (List.mem_cons_of_mem q hr))

theorem revokeLoop_all_ok (fid : Option String)
    (del : Option String → Except HttpErr Unit) (ps : List Permission)
    (hdel : ∀ pid, del pid = .ok ()) :
    revokeLoop fid del ps
      = ((ps.filter fun p => decide (p.type? = some "anyone")).map
          (fun p => DeleteCall.mk fid p.id?), none) := by
  induction ps with
  | nil => simp [revokeLoop]
  | cons p ps ih =>
    by_cases hp : p.type? = some "anyone"
    · simp [revokeLoop, hp, hdel p.id?, ih]
    · simp [revokeLoop, hp, ih]

theorem revokeLoop_no_anyone (fid : Option String)
    (del : Option String → Except HttpErr Unit) (ps : List Permission)
    (hnone : ∀ p ∈ ps, p.type? ≠ some "anyone") :
    revokeLoop fid del ps = ([], none) := by
  induction ps with
  | nil => rfl
  | cons p ps ih =>
    have hp := hnone p (List.mem_cons_self p ps)
    simp only [revokeLoop, if_neg hp]
    exact ih (fun q hq => hnone q (List.mem_cons_of_mem p hq))

theorem revokeLoop_targets (fid : Option String)
    (del : Option String → Except HttpErr Unit) (ps : List Permission) :
    ∀ c ∈ (revokeLoop fid del ps).1, c.fileId = fid := by
  induction ps with
  | nil => intro c hc; simp [revokeLoop] at hc
  | cons p ps ih =>
    intro c hc
    by_cases hp : p.type? = some "anyone"
    · simp only [revokeLoop, if_pos hp] at hc
      match hd : del p.id? with
      | .error e => rw [hd] at hc; simp at hc; subst hc; rfl
      | .ok _ =>
        rw [hd] at hc
        simp only [List.mem_cons] at hc
        rcases hc with hc | hc
        · subst hc; rfl
        · exact ih c hc
    · simp only [revokeLoop, if_neg hp] at hc
      exact ih c hc

/-! Claim theorems: inspector, remediator, authenticator. -/

/-- C3: `is_file_open_for_everyone` and `is_folder_open_for_everyone`
return true iff at least one fetched permission has grant type `"anyone"`
(stated for responses whose entries all carry a `type` key, as the scan
otherwise raises, cf. the short-circuit behaviour settled separately); on a
provider `HttpError` they log and return false; the two functions agree on
every response. -/
theorem inspector_public_iff (perms : List Permission) (e : HttpErr)
    (hwt : ∀ p ∈ perms, (p.type?).isSome) :
    (is_file_open_for_everyone (.ok (some perms)) = .result true
        ↔ ∃ p ∈ perms, p.type? = some "anyone")
    ∧ is_file_open_for_everyone (.error e) = .result false
    ∧ (∀ r : GetResp, is_folder_open_for_everyone r = is_file_open_for_everyone r) := by
  refine ⟨?_, rfl, fun r => rfl⟩
  constructor
  · intro h
    rw [← anyTypeAnyone_ok_true_iff perms hwt]
    simp only [is_file_open_for_everyone, Option.getD] at h
    match ha : anyTypeAnyone perms with
    | .ok true => rfl
    | .ok false => rw [ha] at h; exact absurd h (by simp)
    | .error (.httpError e2) => rw [ha] at h; exact absurd h (by simp)
    | .error .keyError => rw [ha] at h; exact absurd h (by simp)
  · intro h
    have ha := (anyTypeAnyone_ok_true_iff perms hwt).mpr h
    simp [is_file_open_for_everyone, ha]

/-- C3 witness: on a concrete one-permission public file the inspector
returns true, and on a concrete provider error it returns false. -/
theorem inspector_public_iff_witness :
    is_file_open_for_everyone (.ok (some [⟨some "anyone", some "p1"⟩])) = .result true
    ∧ is_file_open_for_everyone (.error .err) = .result false :=
  ⟨(inspector_public_iff [⟨some "anyone", some "p1"⟩] .err (by decide)).1.mpr
      ⟨⟨some "anyone", some "p1"⟩, by decide, rfl⟩,
    (inspector_public_iff [⟨some "anyone", some "p1"⟩] .err (by decide)).2.1⟩

/-- C2: `remove_anyone_can_access_permissions` lists the file's permissions
and issues exactly one delete, by permission id, for each listed permission
of grant type `"anyone"` and for no other, in list order; and when the
listing call fails with a provider error the method still returns normally
having issued no delete (the error is logged, not propagated). -/
theorem remove_anyone_spec (fid : Option String) (env : RevokeEnv) (ps : List Permission)
    (hlist : env.listResp = .ok (some ps))
    (hdel : ∀ pid, env.deleteResp pid = .ok ()) :
    remove_anyone_can_access_permissions fid env
      = ((ps.filter fun p => decide (p.type? = some "anyone")).map
          (fun p => DeleteCall.mk fid p.id?))
    ∧ (∀ env2 : RevokeEnv, ∀ e, env2.listResp = .error e →
        remove_anyone_can_access_permissions fid env2 = []) := by
  constructor
  · simp [remove_anyone_can_access_permissions, removeBody, hlist,
      revokeLoop_all_ok fid env.deleteResp ps hdel]
  · intro env2 e he
    simp [remove_anyone_can_access_permissions, removeBody, he]

/-- C2 witness: on a concrete two-permission list (one `"anyone"`, one
`"user"`) exactly the `"anyone"` permission's id is deleted, and a failing
listing call yields zero deletes. -/
theorem remove_anyone_spec_witness :
    remove_anyone_can_access_permissions (some "f")
        ⟨.ok (some [⟨some "anyone", some "pA"⟩, ⟨some "user", some "pU"⟩]),
          fun _ => .ok ()⟩
      = [⟨some "f", some "pA"⟩]
    ∧ remove_anyone_can_access_permissions (some "f")
        ⟨.error .err, fun _ => .ok ()⟩ = [] := by
  have h := remove_anyone_spec (some "f")
    ⟨.ok (some [⟨some "anyone", some "pA"⟩, ⟨some "user", some "pU"⟩]), fun _ => .ok ()⟩
    [⟨some "anyone", some "pA"⟩, ⟨some "user", some "pU"⟩] rfl (fun _ => rfl)
  exact ⟨h.1, h.2 ⟨.error .err, fun _ => .ok ()⟩ .err rfl⟩

/-- C6: revoking is idempotent — when the listed permissions contain no
grant of type `"anyone"` (in particular after a successful earlier revoke),
the method issues zero delete calls. -/
theorem remove_anyone_idempotent (fid : Option String) (env : RevokeEnv)
    (ps? : Option (List Permission)) (hlist : env.listResp = .ok ps?)
    (hnone : ∀ p ∈ ps?.getD [], p.type? ≠ some "anyone") :
    remove_anyone_can_access_permissions fid env = [] := by
  simp [remove_anyone_can_access_permissions, removeBody, hlist,
    revokeLoop_no_anyone fid env.deleteResp (ps?.getD []) hnone]

/-- C6 witness: a file whose only permission is of type `"user"` gets zero
delete calls. -/
theorem remove_anyone_idempotent_witness :
    remove_anyone_can_access_permissions (some "f")
        ⟨.ok (some [⟨some "user", some "pU"⟩]), fun _ => .ok ()⟩ = [] :=
  remove_anyone_idempotent (some "f")
    ⟨.ok (some [⟨some "user", some "pU"⟩]), fun _ => .ok ()⟩
    (some [⟨some "user", some "pU"⟩]) rfl (by decide)

/-- C7: `_authenticate` returns a loaded valid credential unchanged without
rewriting the store; refreshes and persists a loaded expired credential
that holds a refresh token; and otherwise (no stored credential, or an
invalid one that cannot be refreshed) runs the interactive flow and
persists its result. -/
theorem authenticate_spec (env : AuthEnv) :
    (∀ c, env.stored = some c → c.valid = true → _authenticate env = (c, none))
    ∧ (∀ c, env.stored = some c → c.expired = true → c.refresh_token = true →
        _authenticate env = (env.refreshed c, some (env.refreshed c)))
    ∧ (env.stored = none → _authenticate env = (env.flowCred, some env.flowCred))
    ∧ (∀ c, env.stored = some c → c.valid = false → (c.expired && c.refresh_token) = false →
        _authenticate env = (env.flowCred, some env.flowCred)) := by
  refine ⟨?_, ?_, ?_, ?_⟩
  · intro c hc hv
    simp [_authenticate, hc, hv]
  · intro c hc he hr
    have hv : c.valid = false := by simp [Cred.valid, he]
    simp [_authenticate, hc, hv, he, hr]
  · intro h
    simp [_authenticate, h]
  · intro c hc hv hnr
    simp [_authenticate, hc, hv, hnr]

/-- C7 witness: a stored valid credential is returned unchanged with no
store write, and an expired-but-refreshable one is refreshed and persisted. -/
theorem authenticate_spec_witness :
    _authenticate ⟨some ⟨true, false, true⟩, fun c => ⟨true, false, c.refresh_token⟩,
        ⟨true, false, false⟩⟩ = (⟨true, false, true⟩, none)
    ∧ _authenticate ⟨some ⟨true, true, true⟩, fun c => ⟨true, false, c.refresh_token⟩,
        ⟨true, false, false⟩⟩ = (⟨true, false, true⟩, some ⟨true, false, true⟩) :=
  ⟨(authenticate_spec ⟨some ⟨true, false, true⟩, fun c => ⟨true, false, c.refresh_token⟩,
      ⟨true, false, false⟩⟩).1 ⟨true, false, true⟩ rfl rfl,
    (authenticate_spec ⟨some ⟨true, true, true⟩, fun c => ⟨true, false, c.refresh_token⟩,
      ⟨true, false, false⟩⟩).2.1 ⟨true, true, true⟩ rfl rfl rfl⟩

/-! Pagination lemmas and claim theorems. -/

theorem getAllFilesLoop_chain (pages : Pages) {t : String} {pgs : List Page}
    (h : PagesChain pages t pgs) :
    ∀ acc, getAllFilesLoop pages pgs.length t acc
      = some (.ok (acc ++ (pgs.map (fun pg => pg.files?.getD [])).flatten)) := by
  induction h with
  | last t pg h1 h2 =>
    intro acc
    simp [getAllFilesLoop, h1, h2]
  | step t t2 pg pgs h1 h2 h3 ih =>
    intro acc
    have hlen : (pg :: pgs).length = pgs.length + 1 := rfl
    rw [hlen]
    simp only [getAllFilesLoop, h1, h2]
    rw [ih (acc ++ pg.files?.getD [])]
    simp

/-- C5: for every multi-page response sequence, `get_all_files` follows the
continuation tokens from the initial empty token until a page carries none,
and returns exactly the concatenation of all pages' file entries in arrival
order. -/
theorem get_all_files_pagination (pages : Pages) (pgs : List Page)
    (h : PagesChain pages "" pgs) :
    get_all_files pages pgs.length
      = some (.ok ((pgs.map (fun pg => pg.files?.getD [])).flatten)) := by
  rw [get_all_files, getAllFilesLoop_chain pages h []]
  simp

/-- C5 witness: a concrete two-page sequence (tokens `""` then `"T2"`)
yields the three files of both pages concatenated in order. -/
theorem get_all_files_pagination_witness :
    get_all_files
        (fun t => if t = "" then .ok ⟨some [⟨some "a", some "na"⟩], some "T2"⟩
          else .ok ⟨some [⟨some "b", some "nb"⟩, ⟨some "c", some "nc"⟩], none⟩)
        2
      = some (.ok [⟨some "a", some "na"⟩, ⟨some "b", some "nb"⟩, ⟨some "c", some "nc"⟩]) := by
  have h := get_all_files_pagination
    (fun t => if t = "" then .ok ⟨some [⟨some "a", some "na"⟩], some "T2"⟩
      else .ok ⟨some [⟨some "b", some "nb"⟩, ⟨some "c", some "nc"⟩], none⟩)
    [⟨some [⟨some "a", some "na"⟩], some "T2"⟩,
      ⟨some [⟨some "b", some "nb"⟩, ⟨some "c", some "nc"⟩], none⟩]
    (PagesChain.step "" "T2" _ _ (by simp) rfl (PagesChain.last "T2" _ (by simp) rfl))
  simpa using h

theorem getAllFilesLoop_exit (pages : Pages) :
    ∀ n t acc u pg, chainF pages n t = some u → pages u = .ok pg →
      pg.nextPageToken? = none →
      getAllFilesLoop pages (n + 1) t acc = some (.ok (acc ++ pg.files?.getD [])) ∨
      ∃ acc2, getAllFilesLoop pages (n + 1) t acc = some (.ok (acc2 ++ pg.files?.getD [])) := by
  intro n
  induction n with
  | zero =>
    intro t acc u pg h1 h2 h3
    have ht : t = u := Option.some_injective _ h1
    subst ht
    left
    simp [getAllFilesLoop, h2, h3]
  | succ n ih =>
    intro t acc u pg h1 h2 h3
    match hpt : pages t with
    | .error e =>
      simp only [chainF, hpt] at h1
      exact Option.noConfusion h1
    | .ok pg0 =>
      match hnx : pg0.nextPageToken? with
      | none =>
        simp only [chainF, hpt, hnx] at h1
        exact Option.noConfusion h1
      | some t2 =>
        simp only [chainF, hpt, hnx] at h1
        right
        have h4 := ih t2 (acc ++ pg0.files?.getD []) u pg h1 h2 h3
        simp only [getAllFilesLoop, hpt, hnx]
        rcases h4 with h4 | ⟨acc2, h4⟩
        · exact ⟨acc ++ pg0.files?.getD [], h4⟩
        · exact ⟨acc2, h4⟩

theorem getAllFilesLoop_none_of_no_exit (pages : Pages) :
    ∀ fuel t acc,
      (∀ n u, chainF pages n t = some u →
        ∃ pg t2, pages u = .ok pg ∧ pg.nextPageToken? = some t2) →
      getAllFilesLoop pages fuel t acc = none := by
  intro fuel
  induction fuel with
  | zero => intro t acc _; rfl
  | succ fuel ih =>
    intro t acc h
    obtain ⟨pg, t2, hpg, hnx⟩ := h 0 t rfl
    simp only [getAllFilesLoop, hpg, hnx]
    apply ih
    intro n u hu
    apply h (n + 1) u
    simp only [chainF, hpg, hnx]
    exact hu

/-- C10: assuming every listing call succeeds, the pagination loop (started
at the empty page token) terminates if and only if the sequence of pages it
visits eventually contains one without a `nextPageToken`; and in that case
the chain length plus one is sufficient fuel. -/
theorem get_all_files_termination (pages : Pages)
    (hok : ∀ t, ∃ pg, pages t = .ok pg) :
    (∃ fuel r, get_all_files pages fuel = some r)
    ↔ (∃ n u pg, chainF pages n "" = some u ∧ pages u = .ok pg
        ∧ pg.nextPageToken? = none) := by
  constructor
  · rintro ⟨fuel, r, hr⟩
    by_contra hno
    push_neg at hno
    have hloop : getAllFilesLoop pages fuel "" [] = none := by
      apply getAllFilesLoop_none_of_no_exit
      intro n u hu
      obtain ⟨pg, hpg⟩ := hok u
      match hnx : pg.nextPageToken? with
      | some t2 => exact ⟨pg, t2, hpg, hnx⟩
      | none => exact absurd hnx (hno n u pg hu hpg)
    rw [get_all_files] at hr
    rw [hloop] at hr
    exact Option.noConfusion hr
  · rintro ⟨n, u, pg, h1, h2, h3⟩
    rcases getAllFilesLoop_exit pages n "" [] u pg h1 h2 h3 with h4 | ⟨acc2, h4⟩
    · exact ⟨n + 1, _, h4⟩
    · exact ⟨n + 1, _, h4⟩

/-- C10 witness: a provider whose every page carries no continuation token
satisfies the termination condition, and `get_all_files` indeed returns. -/
theorem get_all_files_termination_witness :
    ∃ fuel r, get_all_files (fun _ => .ok ⟨some [], none⟩) fuel = some r :=
  (get_all_files_termination (fun _ => .ok ⟨some [], none⟩)
    (fun _ => ⟨⟨some [], none⟩, rfl⟩)).mpr ⟨0, "", ⟨some [], none⟩, rfl, rfl, rfl⟩

/-- C4 counterexample: when the very first listing call fails, the claim
says `get_all_files` returns the (empty) accumulated list; the code instead
propagates the `HttpError` to its caller — the method body has no handler. -/
theorem get_all_files_raises_counterexample :
    get_all_files (fun _ => .error .err) 1 = some (.error .err)
    ∧ get_all_files (fun _ => .error .err) 1
        ≠ some (.ok ([] : List FileEntry)) := by
  refine ⟨rfl, fun h => ?_⟩
  rw [show get_all_files (fun _ => .error .err) 1 = some (.error .err) from rfl] at h
  exact Except.noConfusion (Option.some_injective _ h)

theorem getAllFilesLoop_error (pages : Pages) (e : HttpErr) :
    ∀ n t acc u, chainF pages n t = some u → pages u = .error e →
      getAllFilesLoop pages (n + 1) t acc = some (.error e) := by
  intro n
  induction n with
  | zero =>
    intro t acc u h1 h2
    have ht : t = u := Option.some_injective _ h1
    subst ht
    simp [getAllFilesLoop, h2]
  | succ n ih =>
    intro t acc u h1 h2
    match hpt : pages t with
    | .error e2 =>
      simp only [chainF, hpt] at h1
      exact Option.noConfusion h1
    | .ok pg0 =>
      match hnx : pg0.nextPageToken? with
      | none =>
        simp only [chainF, hpt, hnx] at h1
        exact Option.noConfusion h1
      | some t2 =>
        simp only [chainF, hpt, hnx] at h1
        simp only [getAllFilesLoop, hpt, hnx]
        exact ih t2 (acc ++ pg0.files?.getD []) u h1 h2

/-- C4 amended: `get_all_files` has no error handler — when any listing
call along the pagination chain fails, the provider error propagates to the
caller and the files accumulated so far are discarded. -/
theorem get_all_files_error_propagates (pages : Pages) (n : Nat) (u : String)
    (e : HttpErr) (h1 : chainF pages n "" = some u) (h2 : pages u = .error e) :
    get_all_files pages (n + 1) = some (.error e) :=
  getAllFilesLoop_error pages e n "" [] u h1 h2

/-- C4 amended witness: a one-good-page-then-error sequence makes
`get_all_files` propagate the error even though one page of files had
already been accumulated. -/
theorem get_all_files_error_propagates_witness :
    get_all_files
        (fun t => if t = "" then .ok ⟨some [⟨some "a", some "na"⟩], some "T2"⟩
          else .error .err)
        2
      = some (.error .err) :=
  get_all_files_error_propagates
    (fun t => if t = "" then .ok ⟨some [⟨some "a", some "na"⟩], some "T2"⟩
      else .error .err)
    1 "T2" .err (by simp [chainF]) (by simp)

/-! Malformed permission entries: the short-circuit scan versus `.get`. -/

/-- C9 counterexample: a response in which some entry lacks the `type` key
but an earlier entry already has type `"anyone"` does not raise — the
generator inside `any(...)` short-circuits at the first match, so the
inspectors return `True` instead of raising `KeyError`. -/
theorem inspector_keyerror_counterexample :
    is_file_open_for_everyone
        (.ok (some [⟨some "anyone", some "p1"⟩, ⟨none, some "p2"⟩])) = .result true
    ∧ is_folder_open_for_everyone
        (.ok (some [⟨some "anyone", some "p1"⟩, ⟨none, some "p2"⟩])) = .result true
    ∧ is_file_open_for_everyone
        (.ok (some [⟨some "anyone", some "p1"⟩, ⟨none, some "p2"⟩]))
        ≠ .uncaught .keyError := by
  refine ⟨rfl, rfl, fun h => ?_⟩
  rw [show is_file_open_for_everyone
      (.ok (some [⟨some "anyone", some "p1"⟩, ⟨none, some "p2"⟩])) = .result true
    from rfl] at h
  exact BoolOutcome.noConfusion h

/-- C9 amended: when some permission entry lacks the `type` key and no
entry before it has type `"anyone"`, both inspectors raise an uncaught
`KeyError` (their handler catches only `HttpError`), while
`remove_anyone_can_access_permissions` reads the type with `.get('type')`
and tolerates such entries, skipping them. -/
theorem inspector_keyerror_amended (ps1 ps2 : List Permission) (p : Permission)
    (hp : p.type? = none) (hbef : ∀ q ∈ ps1, q.type? ≠ some "anyone")
    (fid : Option String) (del : Option String → Except HttpErr Unit)
    (hdel : ∀ pid, del pid = .ok ()) :
    is_file_open_for_everyone (.ok (some (ps1 ++ p :: ps2))) = .uncaught .keyError
    ∧ is_folder_open_for_everyone (.ok (some (ps1 ++ p :: ps2))) = .uncaught .keyError
    ∧ remove_anyone_can_access_permissions fid ⟨.ok (some (ps1 ++ p :: ps2)), del⟩
        = (((ps1 ++ p :: ps2).filter fun q => decide (q.type? = some "anyone")).map
            (fun q => DeleteCall.mk fid q.id?)) := by
  have hk := anyTypeAnyone_keyError ps1 ps2 p hp hbef
  refine ⟨?_, ?_, ?_⟩
  · simp [is_file_open_for_everyone, hk]
  · simp [is_folder_open_for_everyone, hk]
  · simp [remove_anyone_can_access_permissions, removeBody,
      revokeLoop_all_ok fid del (ps1 ++ p :: ps2) hdel]

/-- C9 amended witness: with entries `user`-typed then typeless, the
inspector raises `KeyError` while the remediator returns normally issuing
no delete. -/
theorem inspector_keyerror_amended_witness :
    is_file_open_for_everyone
        (.ok (some [⟨some "user", some "q"⟩, ⟨none, some "x"⟩])) = .uncaught .keyError
    ∧ remove_anyone_can_access_permissions (some "f")
        ⟨.ok (some [⟨some "user", some "q"⟩, ⟨none, some "x"⟩]), fun _ => .ok ()⟩
        = [] := by
  have h := inspector_keyerror_amended [⟨some "user", some "q"⟩] []
    ⟨none, some "x"⟩ rfl (by decide) (some "f") (fun _ => .ok ()) (fun _ => rfl)
  refine ⟨h.1, ?_⟩
  rw [show ([⟨some "user", some "q"⟩] ++ ⟨none, some "x"⟩ :: []
      : List Permission) = [⟨some "user", some "q"⟩, ⟨none, some "x"⟩] from rfl] at h
  rw [h.2.2]
  decide

/-! The default-visibility probe's cleanup. -/

/-- C8 counterexample: with both probe files created successfully and the
first `files().delete` call failing, the claim says the failure is
tolerated; the code instead propagates the `HttpError` to the caller and
never issues the second delete — the two delete calls at lines 186-187
have no handler. -/
theorem probe_delete_failure_counterexample :
    get_default_sharing_settings
        ⟨fun b => if b then some ⟨"f2"⟩ else some ⟨"f1"⟩,
          fun _ => .ok (some []), fun _ => .error .err⟩
      = (.error (.httpError .err), ["f1"]) := rfl

/-- C8 amended: when both probe files were created successfully and the
comparison helper returns normally, the probe issues a delete for the first
file, and only if that succeeds a delete for the second; without
verification of success the result is then returned, but a failing delete
propagates its `HttpError` to the caller (skipping any remaining delete and
discarding the comparison result). -/
theorem probe_cleanup_spec (env : ProbeEnv) (f1 f2 : CreatedFile)
    (h1 : env.created false = some f1) (h2 : env.created true = some f2)
    (np : Option (List Permission))
    (hcmp : comparePermissions env f1.id f2.id = .ok np) :
    (env.deleteFile f1.id = .ok () → env.deleteFile f2.id = .ok () →
      get_default_sharing_settings env = (.ok np, [f1.id, f2.id]))
    ∧ (∀ e, env.deleteFile f1.id = .error e →
      get_default_sharing_settings env = (.error (.httpError e), [f1.id]))
    ∧ (∀ e, env.deleteFile f1.id = .ok () → env.deleteFile f2.id = .error e →
      get_default_sharing_settings env = (.error (.httpError e), [f1.id, f2.id])) := by
  refine ⟨?_, ?_, ?_⟩
  · intro hd1 hd2
    simp [get_default_sharing_settings, h1, h2, hcmp, hd1, hd2]
  · intro e hd1
    simp [get_default_sharing_settings, h1, h2, hcmp, hd1]
  · intro e hd1 hd2
    simp [get_default_sharing_settings, h1, h2, hcmp, hd1, hd2]

/-- C8 amended witness: with both creations and both deletes succeeding,
the probe deletes both throwaway files and returns the permissions of the
first file not matched by the second file's first permission id. -/
theorem probe_cleanup_spec_witness :
    get_default_sharing_settings
        ⟨fun b => if b then some ⟨"f2"⟩ else some ⟨"f1"⟩,
          fun s => if s = "f1"
            then .ok (some [⟨some "anyone", some "pA"⟩, ⟨some "user", some "pD"⟩])
            else .ok (some [⟨some "user", some "pD"⟩]),
          fun _ => .ok ()⟩
      = (.ok (some [⟨some "anyone", some "pA"⟩]), ["f1", "f2"]) :=
  (probe_cleanup_spec
    ⟨fun b => if b then some ⟨"f2"⟩ else some ⟨"f1"⟩,
      fun s => if s = "f1"
        then .ok (some [⟨some "anyone", some "pA"⟩, ⟨some "user", some "pD"⟩])
        else .ok (some [⟨some "user", some "pD"⟩]),
      fun _ => .ok ()⟩
    ⟨"f1"⟩ ⟨"f2"⟩ rfl rfl (some [⟨some "anyone", some "pA"⟩]) rfl).1 rfl rfl

/-! The monitor cycle. -/

theorem is_file_result_true_elim (ps : List Permission)
    (h : is_file_open_for_everyone (.ok (some ps)) = .result true) :
    anyTypeAnyone ps = .ok true := by
  match ha : anyTypeAnyone ps with
  | .ok true => rfl
  | .ok false =>
    simp only [is_file_open_for_everyone, Option.getD_some, ha] at h
    exact absurd h (by simp)
  | .error (.httpError e) =>
    simp only [is_file_open_for_everyone, Option.getD_some, ha] at h
    exact absurd h (by simp)
  | .error .keyError =>
    simp only [is_file_open_for_everyone, Option.getD_some, ha] at h
    exact absurd h (by simp)

/-- C1: inside a monitor cycle each listed file is processed in listing
order (the cycle's delete trace is the per-file trace followed by the rest
of the cycle), and — over a consistent, well-formed provider view of that
file — permission-delete calls are issued for it exactly when the file is
publicly shared, has a parent folder, and that parent is itself publicly
shared; every issued call targets the file's own id, never the parent's. -/
theorem monitor_cycle_remediation (env : DriveEnv) (f : FileEntry)
    (rest : List FileEntry) (calls : List DeleteCall) (ps : List Permission)
    (hstep : processFile env f = .done calls)
    (hpid : ∀ pid, get_parent_folder_id (env.parentGet f.id?) = some pid → pid ≠ "")
    (hget : env.fileGet f.id? = .ok (some ps))
    (hlist : env.permList f.id? = .ok (some ps))
    (hwt : ∀ p ∈ ps, (p.type?).isSome)
    (hdel : ∀ pid, env.permDelete f.id? pid = .ok ()) :
    (calls ≠ [] ↔
      (is_file_open_for_everyone (env.fileGet f.id?) = .result true
        ∧ ∃ pid, get_parent_folder_id (env.parentGet f.id?) = some pid
            ∧ is_folder_open_for_everyone (env.fileGet (some pid)) = .result true))
    ∧ (∀ c ∈ calls, c.fileId = f.id?)
    ∧ monitorCycle env (f :: rest) = (monitorCycle env rest).map (fun t => calls ++ t) := by
  have hcycle : monitorCycle env (f :: rest)
      = (monitorCycle env rest).map (fun t => calls ++ t) := by
    simp [monitorCycle, hstep]
  cases hA : is_file_open_for_everyone (env.fileGet f.id?) with
  | uncaught e =>
    simp only [processFile, hA] at hstep
    exact StepResult.noConfusion hstep
  | result b =>
    cases b with
    | false =>
      simp only [processFile, hA] at hstep
      have hnil : calls = [] := by
        cases hstep; rfl
      subst hnil
      refine ⟨?_, ?_, hcycle⟩
      · constructor
        · intro hne; exact absurd rfl hne
        · rintro ⟨h1, _⟩
          exact absurd h1 (by simp)
      · intro c hc; simp at hc
    | true =>
      simp only [processFile, hA] at hstep
      cases hP : get_parent_folder_id (env.parentGet f.id?) with
      | none =>
        rw [hP] at hstep
        have hnil : calls = [] := by
          cases hstep; rfl
        subst hnil
        refine ⟨?_, ?_, hcycle⟩
        · constructor
          · intro hne; exact absurd rfl hne
          · rintro ⟨_, pid, hpe, _⟩
            exact Option.noConfusion hpe
        · intro c hc; simp at hc
      | some pid =>
        rw [hP] at hstep
        have hne0 : pid ≠ "" := hpid pid hP
        replace hstep :
            (if pid = "" then StepResult.done []
              else
                match is_folder_open_for_everyone (env.fileGet (some pid)) with
                | .uncaught e => StepResult.crashed e
                | .result false => StepResult.done []
                | .result true =>
                  StepResult.done (remove_anyone_can_access_permissions f.id?
                    ⟨env.permList f.id?, env.permDelete f.id?⟩))
              = StepResult.done calls := hstep
        rw [if_neg hne0] at hstep
        cases hF : is_folder_open_for_everyone (env.fileGet (some pid)) with
        | uncaught e =>
          rw [hF] at hstep
          cases hstep
        | result b2 =>
          cases b2 with
          | false =>
            rw [hF] at hstep
            have hnil : calls = [] := by
              cases hstep; rfl
            subst hnil
            refine ⟨?_, ?_, hcycle⟩
            · constructor
              · intro hne; exact absurd rfl hne
              · rintro ⟨_, pid2, hpe, hf2⟩
                have hpp : pid = pid2 := Option.some_injective _ hpe
                subst hpp
                rw [hF] at hf2
                exact absurd hf2 (by simp)
            · intro c hc; simp at hc
          | true =>
            rw [hF] at hstep
            have hcalls : calls
                = ((ps.filter fun p => decide (p.type? = some "anyone")).map
                    (fun p => DeleteCall.mk f.id? p.id?)) := by
              have h2 : remove_anyone_can_access_permissions f.id?
                  ⟨env.permList f.id?, env.permDelete f.id?⟩ = calls := by
                cases hstep; rfl
              rw [← h2]
              simp [remove_anyone_can_access_permissions, removeBody, hlist,
                revokeLoop_all_ok f.id? (env.permDelete f.id?) ps hdel]
            have hex : ∃ p ∈ ps, p.type? = some "anyone" := by
              rw [hget] at hA
              exact (anyTypeAnyone_ok_true_iff ps hwt).mp (is_file_result_true_elim ps hA)
            have hnempty : calls ≠ [] := by
              rw [hcalls]
              intro hmapnil
              rw [List.map_eq_nil_iff] at hmapnil
              obtain ⟨p, hpmem, hpa⟩ := hex
              have hmem : p ∈ ps.filter fun p => decide (p.type? = some "anyone") :=
                List.mem_filter.mpr ⟨hpmem, by simp [hpa]⟩
              rw [hmapnil] at hmem
              simp at hmem
            refine ⟨⟨fun _ => ⟨rfl, pid, rfl, hF⟩, fun _ => hnempty⟩, ?_, hcycle⟩
            intro c hc
            rw [hcalls] at hc
            simp only [List.mem_map] at hc
            obtain ⟨p, _, hcp⟩ := hc
            rw [← hcp]

/-- C1 witness: a concrete cycle over one public file `A` whose parent
folder `P` is also public revokes exactly `A`'s `"anyone"` permission,
targeting `A` itself. -/
theorem monitor_cycle_remediation_witness :
    monitorCycle
        ⟨fun k => if k = some "A" then .ok (some [⟨some "anyone", some "pA"⟩])
            else if k = some "P" then .ok (some [⟨some "anyone", some "pP"⟩])
            else .ok (some []),
          fun _ => .ok (some ["P"]),
          fun _ => .ok (some [⟨some "anyone", some "pA"⟩]),
          fun _ _ => .ok ()⟩
        [⟨some "A", some "nA"⟩]
      = .ok [⟨some "A", some "pA"⟩] := by
  have h := monitor_cycle_remediation
    ⟨fun k => if k = some "A" then .ok (some [⟨some "anyone", some "pA"⟩])
        else if k = some "P" then .ok (some [⟨some "anyone", some "pP"⟩])
        else .ok (some []),
      fun _ => .ok (some ["P"]),
      fun _ => .ok (some [⟨some "anyone", some "pA"⟩]),
      fun _ _ => .ok ()⟩
    ⟨some "A", some "nA"⟩ [] [⟨some "A", some "pA"⟩] [⟨some "anyone", some "pA"⟩]
    rfl
    (fun pid hp => by
      have h2 : some "P" = some pid := hp
      cases h2
      decide)
    rfl rfl (by decide) (fun _ => rfl)
  rw [h.2.2]
  rfl

end DriveMonitor
